import Mathlib

/-!
Verification of the Trengo webhook custom-field handler (`src/app.ts`).

The source is a single AWS-Lambda handler that

1. decodes the inbound form-encoded body by text substitution and
   `JSON.parse` with a `decodeURIComponent` reviver (`app.ts` lines 71-75),
2. extracts a leading URL from the `message` field with the regex
   `/^(https:|http:|www\.)\S*/gi` (`parseCustomTicketFields`, lines 27-41),
3. if a URL was found, POSTs a serialized custom-field payload to the
   Trengo API, swallowing any fetch error (`sendToTrengo`, lines 47-63),
4. answers 201 on the non-exceptional path and 500 when the try block
   throws (lines 65-101).

The embedding below models JavaScript strings as `List Char` and follows
the source line by line: the body-to-JSON text substitution, a JSON
parser with the reviver semantics of `JSON.parse(text, fn)` (values are
revived bottom-up; `decodeURIComponent` coerces every revived value to a
string, so each top-level field of the decoded record is a string), the
anchored case-insensitive regex, `JSON.stringify` for the two serialized
objects, and the request issued by `fetch`.  Environment configuration
(`TRENGO_TOKEN`, `TRENGO_LINK_FIELD_ID`) is threaded as an explicit
`Config` value.  Error message texts are representative; only their
presence and non-emptiness matter to the handler, which puts the caught
message into the 500 response body.
-/

deriving instance DecidableEq for Except

namespace Trengo

/-- Error values thrown inside the handler: the JavaScript exception
message (`err.message` of the thrown `Error`). -/
abbrev Err := List Char

/-! ### Character classes

`jsSpaceN` is the set of code points matched by the regex class `\s`
in JavaScript (WhiteSpace plus LineTerminator), so `\S` of the source
regex is its complement. -/

/-- Code points matched by the JavaScript regex class `\s`. -/
def jsSpaceN (n : Nat) : Bool :=
  n == 9 || n == 10 || n == 11 || n == 12 || n == 13 || n == 32 ||
  n == 160 || n == 5760 || (decide (8192 ≤ n) && decide (n ≤ 8202)) ||
  n == 8232 || n == 8233 || n == 8239 || n == 8287 || n == 12288 ||
  n == 65279

/-- A character is JavaScript whitespace. -/
def isJsSpace (c : Char) : Bool := jsSpaceN c.toNat

/-- Complement of `isJsSpace`: the regex class `\S`. -/
def notSpace (c : Char) : Bool := !isJsSpace c

/-- Canonicalization used by a case-insensitive (no-`u`) JavaScript
regex on an ASCII pattern: ASCII lowercase letters fold to uppercase,
everything else is left unchanged (ECMA-262 `Canonicalize`; the rule
that a non-ASCII character never folds to an ASCII one means only the
ASCII fold is relevant for the ASCII pattern of the source regex). -/
def canonN (c : Char) : Nat :=
  if 97 ≤ c.toNat ∧ c.toNat ≤ 122 then c.toNat - 32 else c.toNat

/-- Value of a hexadecimal digit, `none` for other characters. -/
def hexVal (c : Char) : Option Nat :=
  let n := c.toNat
  if 48 ≤ n ∧ n ≤ 57 then some (n - 48)
  else if 97 ≤ n ∧ n ≤ 102 then some (n - 87)
  else if 65 ≤ n ∧ n ≤ 70 then some (n - 55)
  else none

/-! ### The body-to-JSON text substitution (app.ts line 71)

`'{"' + event.body?.replace(/&/g, '","').replace(/=/g, '":"') + '"}'`.
With an `undefined` body the optional chain yields `undefined` and the
string concatenation produces `{"undefined"}`. -/

/-- Global single-character replacement, as `String.prototype.replace`
with a `/c/g` regex. -/
def replaceChar (target : Char) (repl : List Char) : List Char → List Char
  | [] => []
  | c :: rest =>
    if c = target then repl ++ replaceChar target repl rest
    else c :: replaceChar target repl rest

/-- Replacement text `","` substituted for `&`. -/
def sepAmp : List Char := ['"', ',', '"']

/-- Replacement text `":"` substituted for `=`. -/
def sepEq : List Char := ['"', ':', '"']

/-- The text handed to `JSON.parse` (app.ts line 71). -/
def constructedJson : Option (List Char) → List Char
  | none => ("\x7b\"undefined\"\x7d".toList)
  | some s =>
    '\x7b' :: '"' :: (replaceChar '=' sepEq (replaceChar '&' sepAmp s) ++ ['"', '\x7d'])

/-! ### JSON values and the JSON parser

`JSON.parse` as the source uses it.  Number values keep their source
lexeme; they can only arise from bodies that smuggle a literal `"`
through the substitution, and every parsed value is coerced to a string
by the reviver before the handler looks at it. -/

/-- Parsed JSON values. -/
inductive Json where
  | str : List Char → Json
  | num : List Char → Json
  | bool : Bool → Json
  | null : Json
  | arr : List Json → Json
  | obj : List (List Char × Json) → Json

/-- Skip JSON inter-token whitespace. -/
def skipWs : List Char → List Char
  | [] => []
  | c :: rest =>
    if c = ' ' ∨ c = '\t' ∨ c = '\n' ∨ c = '\r' then skipWs rest else c :: rest

/-- Replacement character standing in for a lone UTF-16 surrogate from a
`\uXXXX` escape (the Lean `Char` type carries scalar values only; no
claim depends on the identity of such characters). -/
def uFFFD : Char := Char.ofNat 0xFFFD

/-- Parse the rest of a JSON string after the opening quote; returns the
decoded contents and the remaining input after the closing quote.  The
fuel argument only serves to make the recursion structural: every step
consumes at least one input character, so the initial fuel
`length + 1` used by `parseStringBody` can never run out. -/
def parseStringBodyF : Nat → List Char → Except Err (List Char × List Char)
  | 0, _ => .error ("SyntaxError: string fuel exhausted".toList)
  | _ + 1, [] => .error ("SyntaxError: Unterminated string in JSON".toList)
  | fuel + 1, c :: rest =>
    if c = '"' then .ok ([], rest)
    else if c = '\\' then
      match rest with
      | [] => .error ("SyntaxError: Unterminated string in JSON".toList)
      | e :: rest2 =>
        if e = '"' then (fun pr => ('"' :: pr.1, pr.2)) <$> parseStringBodyF fuel rest2
        else if e = '\\' then (fun pr => ('\\' :: pr.1, pr.2)) <$> parseStringBodyF fuel rest2
        else if e = '/' then (fun pr => ('/' :: pr.1, pr.2)) <$> parseStringBodyF fuel rest2
        else if e = 'b' then (fun pr => ('\x08' :: pr.1, pr.2)) <$> parseStringBodyF fuel rest2
        else if e = 'f' then (fun pr => ('\x0c' :: pr.1, pr.2)) <$> parseStringBodyF fuel rest2
        else if e = 'n' then (fun pr => ('\n' :: pr.1, pr.2)) <$> parseStringBodyF fuel rest2
        else if e = 'r' then (fun pr => ('\x0d' :: pr.1, pr.2)) <$> parseStringBodyF fuel rest2
        else if e = 't' then (fun pr => ('\t' :: pr.1, pr.2)) <$> parseStringBodyF fuel rest2
        else if e = 'u' then
          match rest2 with
          | a :: b :: c2 :: d :: rest3 =>
            match hexVal a, hexVal b, hexVal c2, hexVal d with
            | some ha, some hb, some hc, some hd =>
              let n := ((ha * 16 + hb) * 16 + hc) * 16 + hd
              if 0xD800 ≤ n ∧ n ≤ 0xDBFF then
                match rest3 with
                | '\\' :: 'u' :: a2 :: b2 :: c3 :: d2 :: rest4 =>
                  match hexVal a2, hexVal b2, hexVal c3, hexVal d2 with
                  | some ha2, some hb2, some hc2, some hd2 =>
                    let n2 := ((ha2 * 16 + hb2) * 16 + hc2) * 16 + hd2
                    if 0xDC00 ≤ n2 ∧ n2 ≤ 0xDFFF then
                      (fun pr =>
                        (Char.ofNat (0x10000 + (n - 0xD800) * 0x400 + (n2 - 0xDC00)) :: pr.1,
                         pr.2)) <$> parseStringBodyF fuel rest4
                    else (fun pr => (uFFFD :: pr.1, pr.2)) <$> parseStringBodyF fuel rest3
                  | _, _, _, _ => (fun pr => (uFFFD :: pr.1, pr.2)) <$> parseStringBodyF fuel rest3
                | _ => (fun pr => (uFFFD :: pr.1, pr.2)) <$> parseStringBodyF fuel rest3
              else if 0xDC00 ≤ n ∧ n ≤ 0xDFFF then
                (fun pr => (uFFFD :: pr.1, pr.2)) <$> parseStringBodyF fuel rest3
              else (fun pr => (Char.ofNat n :: pr.1, pr.2)) <$> parseStringBodyF fuel rest3
            | _, _, _, _ => .error ("SyntaxError: Bad Unicode escape in JSON".toList)
          | _ => .error ("SyntaxError: Bad Unicode escape in JSON".toList)
        else .error ("SyntaxError: Bad escaped character in JSON".toList)
    else if c.toNat < 0x20 then
      .error ("SyntaxError: Bad control character in JSON string".toList)
    else (fun pr => (c :: pr.1, pr.2)) <$> parseStringBodyF fuel rest

/-- Parse the rest of a JSON string after the opening quote. -/
def parseStringBody (cs : List Char) : Except Err (List Char × List Char) :=
  parseStringBodyF (cs.length + 1) cs

/-- Longest leading run of decimal digits. -/
def digitSpan : List Char → List Char × List Char
  | [] => ([], [])
  | c :: rest =>
    if 48 ≤ c.toNat ∧ c.toNat ≤ 57 then
      let (d, r) := digitSpan rest
      (c :: d, r)
    else ([], c :: rest)

/-- Integer part of a JSON number: `0` or a digit run without leading zero. -/
def parseIntPart : List Char → Except Err (List Char × List Char)
  | [] => .error ("SyntaxError: No number after minus sign in JSON".toList)
  | c :: rest =>
    if c = '0' then .ok (['0'], rest)
    else if 49 ≤ c.toNat ∧ c.toNat ≤ 57 then
      let (d, r) := digitSpan rest
      .ok (c :: d, r)
    else .error ("SyntaxError: Unexpected token in JSON number".toList)

/-- Optional fraction part of a JSON number. -/
def parseFracPart : List Char → Except Err (List Char × List Char)
  | '.' :: rest =>
    match digitSpan rest with
    | ([], _) => .error ("SyntaxError: Unterminated fractional number in JSON".toList)
    | (d, r) => .ok ('.' :: d, r)
  | cs => .ok ([], cs)

/-- Optional exponent part of a JSON number. -/
def parseExpPart : List Char → Except Err (List Char × List Char)
  | [] => .ok ([], [])
  | c :: rest =>
    if c = 'e' ∨ c = 'E' then
      match rest with
      | [] => .error ("SyntaxError: Exponent part is missing a number in JSON".toList)
      | s :: rest2 =>
        if s = '+' ∨ s = '-' then
          match digitSpan rest2 with
          | ([], _) => .error ("SyntaxError: Exponent part is missing a number in JSON".toList)
          | (d, r) => .ok (c :: s :: d, r)
        else
          match digitSpan rest with
          | ([], _) => .error ("SyntaxError: Exponent part is missing a number in JSON".toList)
          | (d, r) => .ok (c :: d, r)
    else .ok ([], c :: rest)

/-- Parse a JSON number, returning its lexeme and the rest of the input. -/
def parseNumber (cs : List Char) : Except Err (List Char × List Char) :=
  match cs with
  | '-' :: rest => do
    let (i, r1) ← parseIntPart rest
    let (f, r2) ← parseFracPart r1
    let (e, r3) ← parseExpPart r2
    .ok ('-' :: (i ++ f ++ e), r3)
  | _ => do
    let (i, r1) ← parseIntPart cs
    let (f, r2) ← parseFracPart r1
    let (e, r3) ← parseExpPart r2
    .ok (i ++ f ++ e, r3)

/-- Property assignment on a JavaScript object literal: a duplicate key
overwrites the earlier value in place, keeping first-insertion order. -/
def objInsert : List (List Char × Json) → List Char → Json → List (List Char × Json)
  | [], k, v => [(k, v)]
  | (k2, v2) :: rest, k, v =>
    if k2 = k then (k2, v) :: rest else (k2, v2) :: objInsert rest k v

mutual

/-- Parse one JSON value.  The fuel argument bounds the chain of mutual
recursive calls; every call site consumes at least one input character
first, so the initial fuel `length + 1` used by `jsonParse` can never
run out. -/
def parseVal : Nat → List Char → Except Err (Json × List Char)
  | 0, _ => .error ("SyntaxError: JSON nesting exhausted the parser".toList)
  | fuel + 1, cs =>
    match skipWs cs with
    | [] => .error ("SyntaxError: Unexpected end of JSON input".toList)
    | c :: rest =>
      if c = '\x7b' then
        match skipWs rest with
        | '\x7d' :: rest2 => .ok (.obj [], rest2)
        | '"' :: rest2 =>
          match parseStringBody rest2 with
          | .error e => .error e
          | .ok (k, rest3) =>
            match skipWs rest3 with
            | ':' :: rest4 =>
              match parseVal fuel rest4 with
              | .error e => .error e
              | .ok (v, rest5) => parseMembers fuel [(k, v)] rest5
            | _ => .error ("SyntaxError: Expected colon after property name in JSON".toList)
        | _ => .error ("SyntaxError: Expected property name or close brace in JSON".toList)
      else if c = '[' then
        match skipWs rest with
        | ']' :: rest2 => .ok (.arr [], rest2)
        | _ =>
          match parseVal fuel rest with
          | .error e => .error e
          | .ok (v, rest2) => parseItems fuel [v] rest2
      else if c = '"' then
        match parseStringBody rest with
        | .error e => .error e
        | .ok (s, rest2) => .ok (.str s, rest2)
      else if c = 't' then
        match rest with
        | 'r' :: 'u' :: 'e' :: rest2 => .ok (.bool true, rest2)
        | _ => .error ("SyntaxError: Unexpected token in JSON".toList)
      else if c = 'f' then
        match rest with
        | 'a' :: 'l' :: 's' :: 'e' :: rest2 => .ok (.bool false, rest2)
        | _ => .error ("SyntaxError: Unexpected token in JSON".toList)
      else if c = 'n' then
        match rest with
        | 'u' :: 'l' :: 'l' :: rest2 => .ok (.null, rest2)
        | _ => .error ("SyntaxError: Unexpected token in JSON".toList)
      else if c = '-' ∨ (48 ≤ c.toNat ∧ c.toNat ≤ 57) then
        match parseNumber (c :: rest) with
        | .error e => .error e
        | .ok (lex, rest2) => .ok (.num lex, rest2)
      else .error ("SyntaxError: Unexpected token in JSON".toList)

/-- Parse the continuation of a JSON object after its first member. -/
def parseMembers : Nat → List (List Char × Json) → List Char →
    Except Err (Json × List Char)
  | 0, _, _ => .error ("SyntaxError: JSON nesting exhausted the parser".toList)
  | fuel + 1, acc, cs =>
    match skipWs cs with
    | '\x7d' :: rest => .ok (.obj acc, rest)
    | ',' :: rest =>
      match skipWs rest with
      | '"' :: rest2 =>
        match parseStringBody rest2 with
        | .error e => .error e
        | .ok (k, rest3) =>
          match skipWs rest3 with
          | ':' :: rest4 =>
            match parseVal fuel rest4 with
            | .error e => .error e
            | .ok (v, rest5) => parseMembers fuel (objInsert acc k v) rest5
          | _ => .error ("SyntaxError: Expected colon after property name in JSON".toList)
      | _ => .error ("SyntaxError: Expected double-quoted property name in JSON".toList)
    | _ => .error ("SyntaxError: Expected comma or close brace in JSON".toList)

/-- Parse the continuation of a JSON array after its first item. -/
def parseItems : Nat → List Json → List Char → Except Err (Json × List Char)
  | 0, _, _ => .error ("SyntaxError: JSON nesting exhausted the parser".toList)
  | fuel + 1, acc, cs =>
    match skipWs cs with
    | ']' :: rest => .ok (.arr acc, rest)
    | ',' :: rest =>
      match parseVal fuel rest with
      | .error e => .error e
      | .ok (v, rest2) => parseItems fuel (acc ++ [v]) rest2
    | _ => .error ("SyntaxError: Expected comma or close bracket in JSON".toList)

end

/-- `JSON.parse` on the whole text. -/
def jsonParse (cs : List Char) : Except Err Json :=
  match parseVal (cs.length + 1) cs with
  | .error e => .error e
  | .ok (v, rest) =>
    match skipWs rest with
    | [] => .ok v
    | _ => .error ("SyntaxError: Unexpected non-whitespace character after JSON".toList)

/-! ### `decodeURIComponent` (ECMA-262 `Decode`)

Characters other than `%` pass through; `%XX` escapes are decoded as
strict UTF-8 (continuation bytes must themselves come from `%XX`
escapes; overlong encodings, surrogate code points and out-of-range
bytes throw a `URIError`). -/

/-- Error thrown by `decodeURIComponent` on a malformed escape sequence. -/
def uriMalformedErr : Err := ("URIError: URI malformed".toList)

/-- `decodeURIComponent` on a character list.  The fuel argument only
makes the recursion structural: every step consumes at least one
character, so the initial fuel `length + 1` can never run out. -/
def decURIF : Nat → List Char → Except Err (List Char)
  | 0, _ => .error ("URIError: fuel exhausted".toList)
  | _ + 1, [] => .ok []
  | fuel + 1, c :: rest =>
    if c = '%' then
      match rest with
      | h :: l :: rest2 =>
        match hexVal h, hexVal l with
        | some hv, some lv =>
          let b := 16 * hv + lv
          if b < 0x80 then
            (fun t => Char.ofNat b :: t) <$> decURIF fuel rest2
          else if 0xC2 ≤ b ∧ b ≤ 0xDF then
            match rest2 with
            | '%' :: h2c :: l2c :: rest3 =>
              match hexVal h2c, hexVal l2c with
              | some hv2, some lv2 =>
                let b2 := 16 * hv2 + lv2
                if 0x80 ≤ b2 ∧ b2 ≤ 0xBF then
                  (fun t => Char.ofNat ((b - 0xC0) * 0x40 + (b2 - 0x80)) :: t) <$>
                    decURIF fuel rest3
                else .error uriMalformedErr
              | _, _ => .error uriMalformedErr
            | _ => .error uriMalformedErr
          else if 0xE0 ≤ b ∧ b ≤ 0xEF then
            match rest2 with
            | '%' :: h2c :: l2c :: '%' :: h3c :: l3c :: rest3 =>
              match hexVal h2c, hexVal l2c, hexVal h3c, hexVal l3c with
              | some hv2, some lv2, some hv3, some lv3 =>
                let b2 := 16 * hv2 + lv2
                let b3 := 16 * hv3 + lv3
                if (0x80 ≤ b2 ∧ b2 ≤ 0xBF) ∧ (0x80 ≤ b3 ∧ b3 ≤ 0xBF) then
                  let cp := (b - 0xE0) * 0x1000 + (b2 - 0x80) * 0x40 + (b3 - 0x80)
                  if 0x800 ≤ cp ∧ ¬(0xD800 ≤ cp ∧ cp ≤ 0xDFFF) then
                    (fun t => Char.ofNat cp :: t) <$> decURIF fuel rest3
                  else .error uriMalformedErr
                else .error uriMalformedErr
              | _, _, _, _ => .error uriMalformedErr
            | _ => .error uriMalformedErr
          else if 0xF0 ≤ b ∧ b ≤ 0xF4 then
            match rest2 with
            | '%' :: h2c :: l2c :: '%' :: h3c :: l3c :: '%' :: h4c :: l4c :: rest3 =>
              match hexVal h2c, hexVal l2c, hexVal h3c, hexVal l3c, hexVal h4c, hexVal l4c with
              | some hv2, some lv2, some hv3, some lv3, some hv4, some lv4 =>
                let b2 := 16 * hv2 + lv2
                let b3 := 16 * hv3 + lv3
                let b4 := 16 * hv4 + lv4
                if (0x80 ≤ b2 ∧ b2 ≤ 0xBF) ∧ (0x80 ≤ b3 ∧ b3 ≤ 0xBF) ∧
                    (0x80 ≤ b4 ∧ b4 ≤ 0xBF) then
                  let cp := (b - 0xF0) * 0x40000 + (b2 - 0x80) * 0x1000 +
                    (b3 - 0x80) * 0x40 + (b4 - 0x80)
                  if 0x10000 ≤ cp ∧ cp ≤ 0x10FFFF then
                    (fun t => Char.ofNat cp :: t) <$> decURIF fuel rest3
                  else .error uriMalformedErr
                else .error uriMalformedErr
              | _, _, _, _, _, _ => .error uriMalformedErr
            | _ => .error uriMalformedErr
          else .error uriMalformedErr
        | _, _ => .error uriMalformedErr
      | _ => .error uriMalformedErr
    else (fun t => c :: t) <$> decURIF fuel rest

/-- `decodeURIComponent`. -/
def decURI (cs : List Char) : Except Err (List Char) :=
  decURIF (cs.length + 1) cs

/-! ### The reviver walk of `JSON.parse(text, reviver)`

The source reviver is `(key, value) => key === '' ? value : decodeURIComponent(value)`.
`InternalizeJSONProperty` walks the tree bottom-up; for every key except
the root it replaces the value by `decodeURIComponent(value)`, which
coerces its argument to a string first (a number prints its decimal
form, an array joins its already-revived element strings with commas, a
plain object prints `[object Object]`) and can throw a `URIError`.
Hence every top-level field of a successfully revived record is a
string. -/

/-- `Array.prototype.toString`: join with commas. -/
def joinComma : List (List Char) → List Char
  | [] => []
  | [s] => s
  | s :: rest => s ++ ',' :: joinComma rest

mutual

/-- Revive one (non-root) value: the reviver result as a string.  The
fuel argument only makes the mutual recursion structural; every parsed
value stands for at least one character of the parsed text, so the
initial fuel `length + 1` supplied by `decodeBody` can never run out. -/
def reviveValue : Nat → Json → Except Err (List Char)
  | 0, _ => .error ("RangeError: reviver fuel exhausted".toList)
  | _ + 1, .str s => decURI s
  | _ + 1, .num lex => decURI lex
  | _ + 1, .bool b => decURI (if b then ("true".toList) else ("false".toList))
  | _ + 1, .null => decURI ("null".toList)
  | fuel + 1, .arr es => do
    let strs ← reviveList fuel es
    decURI (joinComma strs)
  | fuel + 1, .obj props => do
    let _ ← reviveProps fuel props
    decURI ("[object Object]".toList)

/-- Revive array elements in order. -/
def reviveList : Nat → List Json → Except Err (List (List Char))
  | 0, _ => .error ("RangeError: reviver fuel exhausted".toList)
  | _ + 1, [] => .ok []
  | fuel + 1, v :: rest => do
    let s ← reviveValue fuel v
    let srest ← reviveList fuel rest
    .ok (s :: srest)

/-- Revive the values of a nested object in insertion order (the results
are discarded by the subsequent string coercion, but a thrown `URIError`
propagates). -/
def reviveProps : Nat → List (List Char × Json) → Except Err Unit
  | 0, _ => .error ("RangeError: reviver fuel exhausted".toList)
  | _ + 1, [] => .ok ()
  | fuel + 1, (_, v) :: rest => do
    let _ ← reviveValue fuel v
    reviveProps fuel rest

end

/-! ### The decoded record -/

/-- JavaScript values a field of the decoded record could conceptually
hold.  The reviver of the source returns `decodeURIComponent(value)`
for every field, which is always a string, so `decodeBody` only ever
produces `str` values; `num` is part of the value domain so that the
claim that `ticket_id` is decoded as an integer can be stated. -/
inductive JsValue where
  | str : List Char → JsValue
  | num : Int → JsValue
  deriving DecidableEq

/-- Revive the top-level record: every field value becomes a string. -/
def reviveRecord (fuel : Nat) :
    List (List Char × Json) → Except Err (List (List Char × JsValue))
  | [] => .ok []
  | (k, v) :: rest => do
    let s ← reviveValue fuel v
    let r ← reviveRecord fuel rest
    .ok ((k, JsValue.str s) :: r)

/-- The body decode of app.ts lines 71-73: build the JSON-shaped text,
`JSON.parse` it, and run the reviver.  A successful parse of the
constructed text is always an object, since the text starts with a
brace; the catch-all `.ok []` branch is unreachable. -/
def decodeBody (body? : Option (List Char)) : Except Err (List (List Char × JsValue)) :=
  let text := constructedJson body?
  match jsonParse text with
  | .error e => .error e
  | .ok (.obj props) => reviveRecord (text.length + 1) props
  | .ok _ => .ok []

/-- JavaScript property access on the decoded record (`body.message`,
`body.ticket_id`); keys are unique after `objInsert`. -/
def jsLookup (props : List (List Char × JsValue)) (k : List Char) : Option JsValue :=
  match props with
  | [] => none
  | (k2, v) :: rest => if k2 = k then some v else jsLookup rest k

/-- The property key `message`. -/
def messageKey : List Char := "message".toList

/-- The property key `ticket_id`. -/
def ticketIdKey : List Char := "ticket_id".toList

/-- Template-literal interpolation of a possibly-undefined value
(`` `Ticket's ${ticketId} ...` `` and the fetch URL): `undefined`
prints as the text `undefined`, a string prints as itself. -/
def jsToString : Option JsValue → List Char
  | none => ("undefined".toList)
  | some (.str s) => s
  | some (.num n) => (toString n).toList

/-! ### The field extractor (`parseCustomTicketFields`, app.ts 27-41)

The regex is `/^(https:|http:|www\.)\S*/gi`: anchored at the start,
case-insensitive, one of three literal alternatives followed by a
greedy run of non-whitespace.  `message.match` with it yields at most
one match (the anchor can only match at index 0), and `urls[0]` is the
full matched text. -/

/-- Pattern alternative `https:`. -/
def httpsPat : List Char := ['h', 't', 't', 'p', 's', ':']

/-- Pattern alternative `http:`. -/
def httpPat : List Char := ['h', 't', 't', 'p', ':']

/-- Pattern alternative `www\.`. -/
def wwwPat : List Char := ['w', 'w', 'w', '.']

/-- Match a literal pattern case-insensitively at the start of the
input; returns the matched input characters (original case) and the
rest. -/
def stripCI : List Char → List Char → Option (List Char × List Char)
  | [], m => some ([], m)
  | _ :: _, [] => none
  | q :: qs, c :: cs =>
    if canonN c = canonN q then
      (stripCI qs cs).map (fun pr => (c :: pr.1, pr.2))
    else none

/-- The full match of `/^(https:|http:|www\.)\S*/gi` against a message,
alternatives tried in source order, `\S*` greedy. -/
def regexMatchUrl (m : List Char) : Option (List Char) :=
  match stripCI httpsPat m with
  | some (t, d) => some (t ++ d.takeWhile notSpace)
  | none =>
    match stripCI httpPat m with
    | some (t, d) => some (t ++ d.takeWhile notSpace)
    | none =>
      match stripCI wwwPat m with
      | some (t, d) => some (t ++ d.takeWhile notSpace)
      | none => none

/-! ### `JSON.stringify` for the two serialized objects -/

/-- Lowercase hexadecimal digit. -/
def hexDigit (n : Nat) : Char :=
  if n < 10 then Char.ofNat (48 + n) else Char.ofNat (87 + n)

/-- Escaping of one character inside a `JSON.stringify` string
(`QuoteJSONString`). -/
def jsonEscapeChar (c : Char) : List Char :=
  if c = '"' then ['\\', '"']
  else if c = '\\' then ['\\', '\\']
  else if c = '\x08' then ['\\', 'b']
  else if c = '\t' then ['\\', 't']
  else if c = '\n' then ['\\', 'n']
  else if c = '\x0c' then ['\\', 'f']
  else if c = '\x0d' then ['\\', 'r']
  else if c.toNat < 0x20 then
    ['\\', 'u', '0', '0', hexDigit (c.toNat / 16), hexDigit (c.toNat % 16)]
  else [c]

/-- `JSON.stringify` of a string value. -/
def jsonQuote (s : List Char) : List Char :=
  '"' :: (s.flatMap jsonEscapeChar ++ ['"'])

/-- `JSON.stringify({ custom_field_id: TRENGO_LINK_FIELD_ID, value: url })`
(app.ts lines 35-39). -/
def payloadString (linkFieldId url : List Char) : List Char :=
  ("\x7b\"custom_field_id\":".toList) ++ jsonQuote linkFieldId ++
    (",\"value\":".toList) ++ jsonQuote url ++ ['\x7d']

/-- `parseCustomTicketFields` (app.ts 27-41): the serialized custom
field update for the first URL match, or `undefined`. -/
def parseCustomTicketFields (linkFieldId : List Char) (message : List Char) :
    Option (List Char) :=
  (regexMatchUrl message).map (payloadString linkFieldId)

/-! ### The upstream notifier (`sendToTrengo`, app.ts 47-63) -/

/-- Environment configuration read at module load: `TRENGO_TOKEN` and
`TRENGO_LINK_FIELD_ID` (the unused signing secret is omitted). -/
structure Config where
  token : List Char
  linkFieldId : List Char

/-- The outbound HTTP request handed to `fetch`. -/
structure TrengoRequest where
  url : List Char
  method : List Char
  accept : List Char
  authorization : List Char
  contentType : List Char
  body : List Char
  deriving DecidableEq

/-- The HTTP response of the handler. -/
structure LambdaResponse where
  statusCode : Nat
  body : List Char
  deriving DecidableEq

/-- The request built by `sendToTrengo` (URL template, headers, method
and body of app.ts lines 48-59). -/
def trengoRequestFor (token message ticketId : List Char) : TrengoRequest :=
  { url := ("https://app.trengo.com/api/v2/tickets/".toList) ++ ticketId ++
      ("/custom_fields".toList)
    method := ("post".toList)
    accept := ("application/json".toList)
    authorization := ("Bearer ".toList) ++ token
    contentType := ("application/json".toList)
    body := message }

/-- Outcome of the awaited `fetch` call, supplied as a parameter of the
model: `fetchFails = true` plays a rejected promise (network error). -/
def fetchResult (fetchFails : Bool) : Except Err Unit :=
  if fetchFails then .error ("FetchError: network failure".toList) else .ok ()

/-- `sendToTrengo` (app.ts 47-63): issues the request and catches any
fetch error, logging it; the promise always resolves.  The first
component is the outcome seen by the caller, the second the request
that was issued. -/
def sendToTrengo (token : List Char) (fetchFails : Bool) (message ticketId : List Char) :
    Except Err Unit × TrengoRequest :=
  (match fetchResult fetchFails with
   | .error _e => .ok ()
   | .ok _ => .ok (),
   trengoRequestFor token message ticketId)

/-! ### The top-level handler (`lambdaHandler`, app.ts 65-101) -/

/-- `JSON.stringify({ message: s })` used for both response bodies. -/
def stringifyMsg (s : List Char) : List Char :=
  ("\x7b\"message\":".toList) ++ jsonQuote s ++ ['\x7d']

/-- The 201 response of the non-exceptional path (app.ts 84-89). -/
def okResponse (ticketId : List Char) : LambdaResponse :=
  { statusCode := 201
    body := stringifyMsg (("Ticket\x27s ".toList) ++ ticketId ++ (" custom fields set".toList)) }

/-- Error thrown by `parseCustomTicketFields(undefined)`: reading
`.match` of `undefined` (app.ts line 31 when the decoded body has no
`message` field). -/
def msgUndefinedTypeErr : Err :=
  ("TypeError: Cannot read properties of undefined (reading match)".toList)

/-- Error thrown by `message.match` on a non-string `message` value. -/
def msgMatchTypeErr : Err := ("TypeError: message.match is not a function".toList)

/-- The body of the `try` block (app.ts 69-89): returns the success
response together with the outbound requests issued, or the thrown
error.  An error of the awaited `sendToTrengo` promise would propagate
from here (it never does: the promise always resolves). -/
def handlerTry (cfg : Config) (fetchFails : Bool) (body? : Option (List Char)) :
    Except Err (LambdaResponse × List TrengoRequest) :=
  match decodeBody body? with
  | .error e => .error e
  | .ok record =>
    match jsLookup record messageKey with
    | some (JsValue.str message) =>
      match parseCustomTicketFields cfg.linkFieldId message with
      | some customTicketFields =>
        match sendToTrengo cfg.token fetchFails customTicketFields
            (jsToString (jsLookup record ticketIdKey)) with
        | (Except.ok _, req) => .ok (okResponse (jsToString (jsLookup record ticketIdKey)), [req])
        | (Except.error e, _) => .error e
      | none => .ok (okResponse (jsToString (jsLookup record ticketIdKey)), [])
    | some (JsValue.num _) => .error msgMatchTypeErr
    | none => .error msgUndefinedTypeErr

/-- `lambdaHandler` (app.ts 65-101): the try/catch around `handlerTry`.
Returns the HTTP response and the list of outbound requests issued
during the invocation. -/
def lambdaHandler (cfg : Config) (fetchFails : Bool) (body? : Option (List Char)) :
    LambdaResponse × List TrengoRequest :=
  match handlerTry cfg fetchFails body? with
  | .ok r => r
  | .error e => ({ statusCode := 500, body := stringifyMsg e }, [])

/-- Number of field updates an extractor result carries (the source
returns at most a single serialized update). -/
def updateCount : Option (List Char) → Nat
  | none => 0
  | some _ => 1

/-- Whether a decoded record field holds a JavaScript number. -/
def isNumValue : Option JsValue → Bool
  | some (JsValue.num _) => true
  | _ => false

/-! ### Specification-side predicates

These phrase the spec sentences the claims quote ("begins,
case-insensitively, with one of the prefixes", "maximal leading run of
non-whitespace characters") independently of the regex engine model, so
that the extractor can be proved to refine them. -/

/-- The message begins, case-insensitively, with the given literal
pattern: folding both through `canonN`, the leading characters agree
(this forces the message to be at least as long as the pattern). -/
def beginsCIB (p m : List Char) : Bool :=
  (m.take p.length).map canonN == p.map canonN

/-- The message begins with one of `https:`, `http:`, `www.`,
case-insensitively. -/
def beginsAnyB (m : List Char) : Bool :=
  beginsCIB httpsPat m || beginsCIB httpPat m || beginsCIB wwwPat m

/-- Characters that pass through every stage of the fragile decode
untouched: not one of the substituted separators `&` `=`, not a JSON
string delimiter or escape (`"`, `\`), not a percent escape starter,
and not a control character. -/
def simpleChar (c : Char) : Bool :=
  c ≠ '&' && c ≠ '=' && c ≠ '"' && c ≠ '\\' && c ≠ '%' && decide (0x20 ≤ c.toNat)

/-! ## Lemmas -/

/-- `takeWhile` walks through a block of characters that all satisfy the
predicate. -/
theorem takeWhile_append_all (q : Char → Bool) (xs ys : List Char)
    (h : ∀ x ∈ xs, q x = true) :
    (xs ++ ys).takeWhile q = xs ++ ys.takeWhile q := by
  induction xs with
  | nil => rfl
  | cons x xs ih =>
    have hx : q x = true := h x (List.mem_cons_self x xs)
    simp only [List.cons_append, List.takeWhile_cons, hx, if_true]
    rw [ih (fun a ha => h a (List.mem_cons_of_mem _ ha))]

/-- Printable ASCII code points are not JavaScript whitespace. -/
theorem jsSpaceN_false_of_visible (n : Nat) (h1 : 33 ≤ n) (h2 : n ≤ 126) :
    jsSpaceN n = false := by
  simp only [jsSpaceN, Bool.or_eq_false_iff, beq_eq_false_iff_ne, ne_eq,
    Bool.and_eq_false_iff, decide_eq_false_iff_not, not_le]
  omega

/-- Case canonicalization does not change whether a character is
whitespace (it only moves within the ASCII letters). -/
theorem jsSpaceN_canonN (c : Char) : jsSpaceN (canonN c) = jsSpaceN c.toNat := by
  unfold canonN
  split
  case isTrue h =>
    rw [jsSpaceN_false_of_visible _ (by omega) (by omega),
      jsSpaceN_false_of_visible _ (by omega) (by omega)]
  case isFalse h => rfl

/-- Characterization of the case-insensitive literal match: it succeeds
exactly when the `canonN`-folded leading characters agree with the
pattern, and then it splits the input at the pattern length. -/
theorem stripCI_eq : ∀ (p m : List Char),
    stripCI p m =
      if (m.take p.length).map canonN = p.map canonN then
        some (m.take p.length, m.drop p.length)
      else none
  | [], m => by simp [stripCI]
  | q :: qs, [] => by simp [stripCI]
  | q :: qs, c :: cs => by
    simp only [stripCI, List.length_cons, List.take_succ_cons, List.map_cons,
      List.drop_succ_cons]
    by_cases hc : canonN c = canonN q
    · rw [if_pos hc, stripCI_eq qs cs]
      by_cases ht : (cs.take qs.length).map canonN = qs.map canonN
      · rw [if_pos ht, if_pos (by rw [hc, ht])]
        rfl
      · rw [if_neg ht, if_neg]
        · rfl
        · intro hcon
          exact ht (List.cons_eq_cons.mp hcon).2
    · rw [if_neg hc, if_neg]
      intro hcon
      exact hc (List.cons_eq_cons.mp hcon).1

/-- Characters whose canonical form lies in a whitespace-free list are
not whitespace themselves. -/
theorem notSpace_of_canonMap (t : List Char) (ns : List Nat)
    (h : t.map canonN = ns) (hns : ∀ u ∈ ns, jsSpaceN u = false) :
    ∀ c ∈ t, notSpace c = true := by
  intro c hc
  have h1 : canonN c ∈ ns := by
    rw [← h]; exact List.mem_map_of_mem canonN hc
  have h2 := hns _ h1
  rw [jsSpaceN_canonN] at h2
  simp [notSpace, isJsSpace, h2]

/-- A successful case-insensitive prefix match consists of
non-whitespace characters, so appending the greedy `\S*` continuation
yields the maximal leading non-whitespace run of the whole message. -/
theorem matched_run_eq (m : List Char) (p : List Char) (ns : List Nat)
    (hp : p.map canonN = ns) (hns : ∀ u ∈ ns, jsSpaceN u = false)
    (h : (m.take p.length).map canonN = p.map canonN) :
    m.take p.length ++ (m.drop p.length).takeWhile notSpace = m.takeWhile notSpace := by
  have hall : ∀ c ∈ m.take p.length, notSpace c = true :=
    notSpace_of_canonMap _ ns (by rw [h, hp]) hns
  conv_rhs => rw [← List.take_append_drop p.length m]
  rw [takeWhile_append_all notSpace _ _ hall]

/-- The source regex `/^(https:|http:|www\.)\S*/gi`, characterized: a
match exists exactly when the message begins (case-insensitively) with
one of the three alternatives, and the matched text is the maximal
leading run of non-whitespace characters. -/
theorem regexMatchUrl_eq (m : List Char) :
    regexMatchUrl m = if beginsAnyB m then some (m.takeWhile notSpace) else none := by
  unfold regexMatchUrl beginsAnyB beginsCIB
  rw [stripCI_eq httpsPat m, stripCI_eq httpPat m, stripCI_eq wwwPat m]
  by_cases h1 : (m.take httpsPat.length).map canonN = httpsPat.map canonN
  · rw [if_pos h1]
    have hval := matched_run_eq m httpsPat _ rfl (by decide) h1
    simp [h1, hval]
  · rw [if_neg h1]
    by_cases h2 : (m.take httpPat.length).map canonN = httpPat.map canonN
    · rw [if_pos h2]
      have hval := matched_run_eq m httpPat _ rfl (by decide) h2
      simp [h1, h2, hval]
    · rw [if_neg h2]
      by_cases h3 : (m.take wwwPat.length).map canonN = wwwPat.map canonN
      · rw [if_pos h3]
        have hval := matched_run_eq m wwwPat _ rfl (by decide) h3
        simp [h1, h2, h3, hval]
      · rw [if_neg h3]
        rw [List.map_take] at h1 h2 h3
        simp [h1, h2, h3]

/-- A pattern free of (canonical) spaces cannot stretch across a space:
if the message is shorter than the pattern up to its first space, the
case-insensitive begins-with test fails. -/
theorem beginsCIB_space_false (p u r : List Char)
    (hp : ∀ x ∈ p, canonN x ≠ 32) (hlen : u.length < p.length) :
    beginsCIB p (u ++ ' ' :: r) = false := by
  unfold beginsCIB
  rw [beq_eq_false_iff_ne]
  intro hcon
  have hs : ' ' ∈ (u ++ ' ' :: r).take p.length := by
    rw [List.take_append_eq_append_take]
    refine List.mem_append_right _ ?_
    have hk : p.length - u.length = (p.length - u.length - 1) + 1 := by omega
    rw [hk, List.take_succ_cons]
    exact List.mem_cons_self _ _
  have h32 : (32 : Nat) ∈ p.map canonN := by
    rw [← hcon]
    have hsp : canonN ' ' = 32 := by decide
    rw [← hsp]
    exact List.mem_map_of_mem canonN hs
  obtain ⟨x, hx, hx32⟩ := List.mem_map.mp h32
  exact hp x hx hx32

/-- Whether a message of the shape `u ++ ' ' :: r` begins with a
space-free pattern does not depend on `r`. -/
theorem beginsCIB_space_cut (p u r r2 : List Char) (hp : ∀ x ∈ p, canonN x ≠ 32) :
    beginsCIB p (u ++ ' ' :: r) = beginsCIB p (u ++ ' ' :: r2) := by
  by_cases hlen : p.length ≤ u.length
  · unfold beginsCIB
    rw [List.take_append_eq_append_take, List.take_append_eq_append_take]
    have h0 : p.length - u.length = 0 := by omega
    rw [h0]
    simp
  · rw [beginsCIB_space_false p u r hp (by omega),
      beginsCIB_space_false p u r2 hp (by omega)]

/-- Whether a message of the shape `u ++ ' ' :: r` begins with one of
the three URL prefixes does not depend on `r`. -/
theorem beginsAnyB_space_cut (u r r2 : List Char) :
    beginsAnyB (u ++ ' ' :: r) = beginsAnyB (u ++ ' ' :: r2) := by
  unfold beginsAnyB
  rw [beginsCIB_space_cut httpsPat u r r2 (by decide),
    beginsCIB_space_cut httpPat u r r2 (by decide),
    beginsCIB_space_cut wwwPat u r r2 (by decide)]

/-- The maximal leading non-whitespace run of `u ++ ' ' :: r` is `u`
when `u` is space-free. -/
theorem takeWhile_space_cut (u r : List Char) (hu : ∀ c ∈ u, notSpace c = true) :
    (u ++ ' ' :: r).takeWhile notSpace = u := by
  rw [takeWhile_append_all notSpace u _ hu]
  have hsp : notSpace ' ' = false := by decide
  simp [List.takeWhile_cons, hsp]

/-- Unpack the conjuncts of `simpleChar`. -/
theorem simpleChar_spec (c : Char) (h : simpleChar c = true) :
    c ≠ '&' ∧ c ≠ '=' ∧ c ≠ '"' ∧ c ≠ '\\' ∧ c ≠ '%' ∧ 0x20 ≤ c.toNat := by
  simp only [simpleChar, Bool.and_eq_true, decide_eq_true_eq, ne_eq] at h
  exact ⟨h.1.1.1.1.1, h.1.1.1.1.2, h.1.1.1.2, h.1.1.2, h.1.2, h.2⟩

/-- `replaceChar` distributes over append. -/
theorem replaceChar_append (t : Char) (r xs ys : List Char) :
    replaceChar t r (xs ++ ys) = replaceChar t r xs ++ replaceChar t r ys := by
  induction xs with
  | nil => rfl
  | cons x xs ih =>
    simp only [List.cons_append, replaceChar, List.append_eq]
    split
    · rw [ih, List.append_assoc]
    · rw [ih, List.cons_append]

/-- `replaceChar` is the identity on lists free of the target. -/
theorem replaceChar_of_not_mem (t : Char) (r xs : List Char) (h : t ∉ xs) :
    replaceChar t r xs = xs := by
  induction xs with
  | nil => rfl
  | cons x xs ih =>
    have hx : ¬x = t := fun he => h (he ▸ List.mem_cons_self x xs)
    simp only [replaceChar, if_neg hx]
    rw [ih (fun hm => h (List.mem_cons_of_mem _ hm))]

/-- `decodeURIComponent` is the identity on percent-free input. -/
theorem decURIF_no_percent : ∀ (n : Nat) (s : List Char), s.length < n →
    (∀ c ∈ s, c ≠ '%') → decURIF n s = .ok s
  | 0, s, hlen, _ => absurd hlen (Nat.not_lt_zero _)
  | _ + 1, [], _, _ => rfl
  | n + 1, c :: rest, hlen, h => by
    have hc : ¬c = '%' := h c (List.mem_cons_self _ _)
    have hlen2 : rest.length < n := by
      simp only [List.length_cons] at hlen; omega
    simp only [decURIF, if_neg hc]
    rw [decURIF_no_percent n rest hlen2 (fun a ha => h a (List.mem_cons_of_mem _ ha))]
    rfl

/-- `decodeURIComponent` is the identity on percent-free input. -/
theorem decURI_no_percent (s : List Char) (h : ∀ c ∈ s, c ≠ '%') :
    decURI s = .ok s :=
  decURIF_no_percent _ s (Nat.lt_succ_self _) h

/-- `skipWs` does not move past a non-whitespace head. -/
theorem skipWs_cons_nws (c : Char) (cs : List Char)
    (h : ¬(c = ' ' ∨ c = '\t' ∨ c = '\n' ∨ c = '\r')) :
    skipWs (c :: cs) = c :: cs := by
  simp [skipWs, h]

/-- The JSON string-body parser scans a block of simple characters up
to the closing quote. -/
theorem parseStringBodyF_simple : ∀ (n : Nat) (content rest : List Char),
    content.length < n → (∀ c ∈ content, simpleChar c = true) →
    parseStringBodyF n (content ++ '"' :: rest) = .ok (content, rest)
  | 0, content, _, hlen, _ => absurd hlen (Nat.not_lt_zero _)
  | _ + 1, [], rest, _, _ => rfl
  | n + 1, c :: content, rest, hlen, h => by
    obtain ⟨_, _, hq, hbs, _, hge⟩ := simpleChar_spec c (h c (List.mem_cons_self _ _))
    have hlen2 : content.length < n := by
      simp only [List.length_cons] at hlen; omega
    simp only [List.cons_append, parseStringBodyF, List.append_eq, if_neg hq, if_neg hbs,
      if_neg (by omega : ¬c.toNat < 0x20)]
    rw [parseStringBodyF_simple n content rest hlen2
      (fun a ha => h a (List.mem_cons_of_mem _ ha))]
    rfl

/-- The wrapped JSON string-body parser on a simple block. -/
theorem parseStringBody_simple (content rest : List Char)
    (h : ∀ c ∈ content, simpleChar c = true) :
    parseStringBody (content ++ '"' :: rest) = .ok (content, rest) := by
  unfold parseStringBody
  exact parseStringBodyF_simple _ content rest (by simp [List.length_append]; omega) h

/-- The JSON value parser on a quoted simple block. -/
theorem parseVal_string (m : Nat) (content rest : List Char)
    (h : ∀ c ∈ content, simpleChar c = true) :
    parseVal (m + 1) ('"' :: (content ++ '"' :: rest)) = .ok (.str content, rest) := by
  simp only [parseVal]
  rw [skipWs_cons_nws _ _ (by decide)]
  simp only [if_neg (by decide : ¬('"' : Char) = '\x7b'),
    if_neg (by decide : ¬('"' : Char) = '['), if_pos (rfl : ('"' : Char) = '"')]
  rw [parseStringBody_simple content rest h]
  simp

/-- The JSON parser on the exact object text the substitution builds
from a well-formed two-field body: a flat object with the two expected
string members. -/
theorem parse_two_field (n : Nat) (v t : List Char)
    (hv : ∀ c ∈ v, simpleChar c = true) (ht : ∀ c ∈ t, simpleChar c = true) :
    parseVal (n + 4)
      ('\x7b' :: '"' :: ("message".toList ++ ('"' :: ':' :: '"' ::
        (v ++ ('"' :: ',' :: '"' :: ("ticket_id".toList ++ ('"' :: ':' :: '"' ::
          (t ++ ['"', '\x7d'])))))))) =
      .ok (.obj [(("message".toList), .str v), (("ticket_id".toList), .str t)], []) := by
  rw [show n + 4 = (n + 3) + 1 from rfl]
  rw [parseVal.eq_2]
  rw [skipWs_cons_nws _ _ (by decide)]
  simp only []
  simp only [if_true]
  rw [skipWs_cons_nws _ _ (by decide)]
  simp only []
  rw [parseStringBody_simple ("message".toList) _ (by decide)]
  simp only []
  rw [skipWs_cons_nws _ _ (by decide)]
  simp only []
  rw [show n + 3 = (n + 2) + 1 from rfl]
  rw [parseVal_string (n + 2) v _ hv]
  simp only []
  rw [parseMembers.eq_2]
  rw [skipWs_cons_nws _ _ (by decide)]
  simp only []
  rw [skipWs_cons_nws _ _ (by decide)]
  simp only []
  rw [parseStringBody_simple ("ticket_id".toList) _ (by decide)]
  simp only []
  rw [skipWs_cons_nws _ _ (by decide)]
  simp only []
  rw [show n + 2 = (n + 1) + 1 from rfl]
  rw [parseVal_string (n + 1) t _ ht]
  simp only []
  rw [parseMembers.eq_2]
  rw [skipWs_cons_nws _ _ (by decide)]
  simp only [objInsert, if_neg (by decide : ¬("message".toList) = ("ticket_id".toList))]

/-- One substitution step at an occurrence of the target. -/
theorem replaceChar_cons_self (t : Char) (r xs : List Char) :
    replaceChar t r (t :: xs) = r ++ replaceChar t r xs := by
  simp [replaceChar]

/-- The full decode of a well-formed two-field body
`message=<v>&ticket_id=<t>` whose values are made of simple characters:
it succeeds and yields the two percent-decoded (here: unchanged) string
fields. -/
theorem decode_two_field (v t : List Char)
    (hv : ∀ c ∈ v, simpleChar c = true) (ht : ∀ c ∈ t, simpleChar c = true) :
    decodeBody (some (("message=".toList) ++ (v ++ ('&' :: (("ticket_id=".toList) ++ t))))) =
      .ok [(("message".toList), .str v), (("ticket_id".toList), .str t)] := by
  have hav : '&' ∉ v := fun hm => (simpleChar_spec _ (hv _ hm)).1 rfl
  have hat : '&' ∉ t := fun hm => (simpleChar_spec _ (ht _ hm)).1 rfl
  have hev : '=' ∉ v := fun hm => (simpleChar_spec _ (hv _ hm)).2.1 rfl
  have het : '=' ∉ t := fun hm => (simpleChar_spec _ (ht _ hm)).2.1 rfl
  have hpv : ∀ c ∈ v, c ≠ '%' := fun c hm => (simpleChar_spec _ (hv _ hm)).2.2.2.2.1
  have hpt : ∀ c ∈ t, c ≠ '%' := fun c hm => (simpleChar_spec _ (ht _ hm)).2.2.2.2.1
  have h1 : replaceChar '&' sepAmp
      (("message=".toList) ++ (v ++ ('&' :: (("ticket_id=".toList) ++ t))))
      = ("message=".toList) ++ (v ++ (sepAmp ++ (("ticket_id=".toList) ++ t))) := by
    rw [replaceChar_append, replaceChar_append]
    rw [replaceChar_of_not_mem _ _ _ (by decide : '&' ∉ ("message=".toList))]
    rw [replaceChar_of_not_mem _ _ _ hav]
    rw [replaceChar_cons_self]
    rw [replaceChar_append]
    rw [replaceChar_of_not_mem _ _ _ (by decide : '&' ∉ ("ticket_id=".toList))]
    rw [replaceChar_of_not_mem _ _ _ hat]
  have h2 : replaceChar '=' sepEq
      (("message=".toList) ++ (v ++ (sepAmp ++ (("ticket_id=".toList) ++ t))))
      = ("message".toList) ++ (sepEq ++ (v ++ (sepAmp ++
          (("ticket_id".toList) ++ (sepEq ++ t))))) := by
    rw [replaceChar_append, replaceChar_append, replaceChar_append, replaceChar_append]
    rw [(by decide : replaceChar '=' sepEq ("message=".toList) = ("message".toList) ++ sepEq)]
    rw [(by decide : replaceChar '=' sepEq sepAmp = sepAmp)]
    rw [(by decide : replaceChar '=' sepEq ("ticket_id=".toList) = ("ticket_id".toList) ++ sepEq)]
    rw [replaceChar_of_not_mem _ _ _ hev]
    rw [replaceChar_of_not_mem _ _ _ het]
    simp [List.append_assoc]
  have htext : constructedJson
      (some (("message=".toList) ++ (v ++ ('&' :: (("ticket_id=".toList) ++ t)))))
      = '\x7b' :: '"' :: ("message".toList ++ ('"' :: ':' :: '"' ::
          (v ++ ('"' :: ',' :: '"' :: ("ticket_id".toList ++ ('"' :: ':' :: '"' ::
            (t ++ ['"', '\x7d']))))))) := by
    show '\x7b' :: '"' :: (replaceChar '=' sepEq (replaceChar '&' sepAmp _) ++ ['"', '\x7d']) = _
    rw [h1, h2]
    simp [sepEq, sepAmp, List.append_assoc]
  have hlen : (constructedJson
      (some (("message=".toList) ++ (v ++ ('&' :: (("ticket_id=".toList) ++ t)))))).length
      = v.length + t.length + 29 := by
    rw [htext]
    have h7 : ("message".toList).length = 7 := by decide
    have h9 : ("ticket_id".toList).length = 9 := by decide
    simp [List.length_append, List.length_cons, h7, h9]
    omega
  have hparse : jsonParse (constructedJson
      (some (("message=".toList) ++ (v ++ ('&' :: (("ticket_id=".toList) ++ t))))))
      = .ok (.obj [(("message".toList), .str v), (("ticket_id".toList), .str t)]) := by
    unfold jsonParse
    rw [(by omega : (constructedJson
      (some (("message=".toList) ++ (v ++ ('&' :: (("ticket_id=".toList) ++ t)))))).length + 1
      = (v.length + t.length + 26) + 4)]
    rw [htext]
    rw [parse_two_field (v.length + t.length + 26) v t hv ht]
    rfl
  simp only [decodeBody]
  rw [hparse]
  simp only []
  simp only [reviveRecord, reviveValue]
  rw [decURI_no_percent v hpv, decURI_no_percent t hpt]
  rfl

/-- The notifier promise always resolves, and the request it issues is
the templated POST, whether or not the fetch fails (the error is caught
and only logged). -/
theorem sendToTrengo_eq (tok : List Char) (ff : Bool) (m tid : List Char) :
    sendToTrengo tok ff m tid = (.ok (), trengoRequestFor tok m tid) := by
  cases ff <;> rfl

/-- The try block when decoding succeeds, the message is a string and a
URL was extracted: the 201 response and exactly one outbound request. -/
theorem handlerTry_some (cfg : Config) (ff : Bool) (b : Option (List Char))
    (record : List (List Char × JsValue)) (m p : List Char)
    (hdec : decodeBody b = .ok record)
    (hmsg : jsLookup record messageKey = some (.str m))
    (hext : parseCustomTicketFields cfg.linkFieldId m = some p) :
    handlerTry cfg ff b =
      .ok (okResponse (jsToString (jsLookup record ticketIdKey)),
        [trengoRequestFor cfg.token p (jsToString (jsLookup record ticketIdKey))]) := by
  unfold handlerTry
  rw [hdec]
  simp only []
  rw [hmsg]
  simp only []
  rw [hext]
  simp only []
  rw [sendToTrengo_eq]

/-- The try block when decoding succeeds, the message is a string and no
URL was extracted: the 201 response and no outbound request. -/
theorem handlerTry_none (cfg : Config) (ff : Bool) (b : Option (List Char))
    (record : List (List Char × JsValue)) (m : List Char)
    (hdec : decodeBody b = .ok record)
    (hmsg : jsLookup record messageKey = some (.str m))
    (hext : parseCustomTicketFields cfg.linkFieldId m = none) :
    handlerTry cfg ff b = .ok (okResponse (jsToString (jsLookup record ticketIdKey)), []) := by
  unfold handlerTry
  rw [hdec]
  simp only []
  rw [hmsg]
  simp only []
  rw [hext]

/-- The try block when decoding succeeds but the record has no `message`
field: `parseCustomTicketFields(undefined)` throws. -/
theorem handlerTry_nomsg (cfg : Config) (ff : Bool) (b : Option (List Char))
    (record : List (List Char × JsValue))
    (hdec : decodeBody b = .ok record)
    (hmsg : jsLookup record messageKey = none) :
    handlerTry cfg ff b = .error msgUndefinedTypeErr := by
  unfold handlerTry
  rw [hdec]
  simp only []
  rw [hmsg]

/-- Every successful outcome of the try block carries status 201. -/
theorem handlerTry_ok_status (cfg : Config) (ff : Bool) (b : Option (List Char))
    (rc : LambdaResponse × List TrengoRequest) (h : handlerTry cfg ff b = .ok rc) :
    rc.1.statusCode = 201 := by
  unfold handlerTry at h
  repeat' split at h
  all_goals first
    | (injection h with h1; subst h1; rfl)
    | injection h

/-- Digit characters are simple. -/
theorem simpleChar_of_digitN (c : Char) (h : 48 ≤ c.toNat ∧ c.toNat ≤ 57) :
    simpleChar c = true := by
  simp only [simpleChar, Bool.and_eq_true, decide_eq_true_eq, ne_eq]
  refine ⟨⟨⟨⟨⟨?_, ?_⟩, ?_⟩, ?_⟩, ?_⟩, by omega⟩ <;>
    (intro he; subst he; revert h; decide)

/-! ## Claims -/

/-- C2: for every message, the extractor returns a field update exactly
when the message begins (case-insensitively) with one of `https:`,
`http:`, `www.` — the `www.` prefix recognized exactly as the other
two — and then the update's value is the maximal leading run of
non-whitespace characters; a message with no such leading prefix yields
no update (`none`) rather than an error. -/
theorem c2_url_recognition (fid m : List Char) :
    parseCustomTicketFields fid m =
      if beginsAnyB m then some (payloadString fid (m.takeWhile notSpace)) else none := by
  unfold parseCustomTicketFields
  rw [regexMatchUrl_eq]
  by_cases h : beginsAnyB m <;> simp [h]

/-- C1 counterexample: for the body
`message=Check https://example.com/path&ticket_id=42` the message does
not begin with a URL prefix (the regex is anchored), so the extractor
yields no update and no outbound call is made — refuting the claimed
payload and outbound call for this body. -/
theorem c1_counterexample :
    parseCustomTicketFields ("fid".toList) (("Check https://example.com/path").toList) = none ∧
    (lambdaHandler ⟨("tok".toList), ("fid".toList)⟩ false
      (some (("message=Check https://example.com/path&ticket_id=42").toList))).2 = [] := by
  decide

/-- C1 (amended): for the body
`message=Check https://example.com/path&ticket_id=42` the extractor
yields no update (the anchored regex does not match a message that does
not begin with the URL) and no outbound call is made, yet the handler
still responds 201 with body
`{"message":"Ticket's 42 custom fields set"}`; the claimed payload
`{"custom_field_id": <LINK_FIELD_ID>, "value": "https://example.com/path"}`
and the outbound call carrying it occur for the body
`message=https://example.com/path&ticket_id=42`, whose message begins
with the URL, with the same 201 response. -/
theorem c1_extraction_and_response (cfg : Config) (ff : Bool) :
    (parseCustomTicketFields cfg.linkFieldId (("Check https://example.com/path").toList) = none ∧
      lambdaHandler cfg ff (some (("message=Check https://example.com/path&ticket_id=42").toList)) =
        ({ statusCode := 201,
           body := (("\x7b\"message\":\"Ticket\x27s 42 custom fields set\"\x7d").toList) }, [])) ∧
    (parseCustomTicketFields cfg.linkFieldId (("https://example.com/path").toList) =
        some (payloadString cfg.linkFieldId (("https://example.com/path").toList)) ∧
      lambdaHandler cfg ff (some (("message=https://example.com/path&ticket_id=42").toList)) =
        ({ statusCode := 201,
           body := (("\x7b\"message\":\"Ticket\x27s 42 custom fields set\"\x7d").toList) },
         [trengoRequestFor cfg.token
            (payloadString cfg.linkFieldId (("https://example.com/path").toList))
            (("42").toList)])) := by
  refine ⟨⟨rfl, rfl⟩, ⟨rfl, ?_⟩⟩
  cases ff <;> rfl

/-- C3: when decoding succeeds and extraction produces an update (so an
outbound call is attempted), a failing fetch changes nothing about the
handler's result — the error is caught inside `sendToTrengo` — and the
response status is 201, never 500. -/
theorem c3_outbound_failure_contained (cfg : Config) (b : Option (List Char))
    (record : List (List Char × JsValue)) (m p : List Char)
    (hdec : decodeBody b = .ok record)
    (hmsg : jsLookup record messageKey = some (.str m))
    (hext : parseCustomTicketFields cfg.linkFieldId m = some p) :
    lambdaHandler cfg true b = lambdaHandler cfg false b ∧
    (lambdaHandler cfg true b).1.statusCode = 201 := by
  have h1 := handlerTry_some cfg true b record m p hdec hmsg hext
  have h2 := handlerTry_some cfg false b record m p hdec hmsg hext
  unfold lambdaHandler
  rw [h1, h2]
  exact ⟨rfl, rfl⟩

/-- C3 witness: a concrete invocation with a URL message, evaluated at
both fetch outcomes. -/
theorem c3_witness :
    (decodeBody (some (("message=https://x&ticket_id=1").toList)) =
      .ok [(messageKey, JsValue.str (("https://x").toList)),
           (ticketIdKey, JsValue.str (("1").toList))]) ∧
    (jsLookup [(messageKey, JsValue.str (("https://x").toList)),
        (ticketIdKey, JsValue.str (("1").toList))] messageKey =
      some (JsValue.str (("https://x").toList))) ∧
    (parseCustomTicketFields (("fid").toList) (("https://x").toList) =
      some (payloadString (("fid").toList) (("https://x").toList))) ∧
    lambdaHandler ⟨("tok".toList), ("fid".toList)⟩ true
        (some (("message=https://x&ticket_id=1").toList)) =
      lambdaHandler ⟨("tok".toList), ("fid".toList)⟩ false
        (some (("message=https://x&ticket_id=1").toList)) :=
  ⟨by decide, by decide, by decide,
    (c3_outbound_failure_contained ⟨("tok".toList), ("fid".toList)⟩
      (some (("message=https://x&ticket_id=1").toList))
      [(messageKey, JsValue.str (("https://x").toList)),
       (ticketIdKey, JsValue.str (("1").toList))]
      (("https://x").toList)
      (payloadString (("fid").toList) (("https://x").toList))
      (by decide) (by decide) (by decide)).1⟩

/-- C4 counterexample: the body `message=%26&ticket_id=1` decodes
successfully although its decoded message value is `&` — one of the
three supposedly fatal characters — because the substitution runs
before percent-decoding; this refutes "decoding fails for any input
whose decoded values contain one of those three characters". -/
theorem c4_counterexample :
    decodeBody (some (("message=%26&ticket_id=1").toList)) =
      .ok [(messageKey, JsValue.str ['&']), (ticketIdKey, JsValue.str ['1'])] ∧
    '&' ∈ ['&'] := by
  decide

/-- C4 (amended): the decode throws a parse error when a raw body value
contains a literal (percent-unescaped) `"`, `&` or `=` — the characters
are substituted or break the JSON string before the reviver ever runs —
while percent-encoded occurrences (`%22`, `%26`, `%3D`) survive
decoding, so the decoded values can contain the three characters. -/
theorem c4_fragile_decode :
    (decodeBody (some (("message=a=b&ticket_id=1").toList))).isOk = false ∧
    (decodeBody (some (("message=a\"b&ticket_id=1").toList))).isOk = false ∧
    (decodeBody (some (("message=a&b&ticket_id=1").toList))).isOk = false ∧
    decodeBody (some (("message=%22%26%3D&ticket_id=1").toList)) =
      .ok [(messageKey, JsValue.str ['"', '&', '=']), (ticketIdKey, JsValue.str ['1'])] := by
  decide

/-- C5 counterexample: decoding `message=hi&ticket_id=42` yields the
ticket id as the string `"42"`, not as an integer — every revived field
is a `decodeURIComponent` result, hence a string. -/
theorem c5_counterexample :
    decodeBody (some (("message=hi&ticket_id=42").toList)) =
      .ok [(messageKey, JsValue.str (("hi").toList)),
           (ticketIdKey, JsValue.str (("42").toList))] ∧
    isNumValue (jsLookup [(messageKey, JsValue.str (("hi").toList)),
      (ticketIdKey, JsValue.str (("42").toList))] ticketIdKey) = false := by
  decide

/-- C5 (amended): for every well-formed two-field body
`message=<v>&ticket_id=<t>` (values free of the fragile characters, the
ticket id a digit string), the decoder produces a record whose `message`
field is the string `v` and whose ticket id field is the digit string
`t` — a string, not an integer. -/
theorem c5_decoded_record_shape (v t : List Char)
    (hv : ∀ c ∈ v, simpleChar c = true)
    (ht : ∀ c ∈ t, 48 ≤ c.toNat ∧ c.toNat ≤ 57) (hne : t ≠ []) :
    decodeBody (some (("message=".toList) ++ (v ++ ('&' :: (("ticket_id=".toList) ++ t))))) =
      .ok [(messageKey, .str v), (ticketIdKey, .str t)] ∧
    isNumValue (jsLookup [(messageKey, JsValue.str v), (ticketIdKey, JsValue.str t)]
      ticketIdKey) = false := by
  constructor
  · show decodeBody _ = .ok [(("message".toList), .str v), (("ticket_id".toList), .str t)]
    exact decode_two_field v t hv (fun c hc => simpleChar_of_digitN c (ht c hc))
  · simp [jsLookup, messageKey, ticketIdKey, isNumValue]

/-- C5 witness: the amended statement at `v = hi`, `t = 42`. -/
theorem c5_witness :
    (∀ c ∈ (("hi").toList), simpleChar c = true) ∧
    (∀ c ∈ (("42").toList), 48 ≤ c.toNat ∧ c.toNat ≤ 57) ∧
    decodeBody (some (("message=".toList) ++ ((("hi").toList) ++
        ('&' :: (("ticket_id=".toList) ++ (("42").toList)))))) =
      .ok [(messageKey, .str (("hi").toList)), (ticketIdKey, .str (("42").toList))] :=
  ⟨by decide, by decide,
    (c5_decoded_record_shape (("hi").toList) (("42").toList)
      (by decide) (by decide) (by decide)).1⟩

/-- C6: for an absent or empty inbound body the handler responds 500,
and the `message` field of the response body (the caught exception
text) is a non-empty string. -/
theorem c6_absent_body_500 (cfg : Config) (ff : Bool) :
    ((lambdaHandler cfg ff none).1.statusCode = 500 ∧
      ∃ e : Err, e ≠ [] ∧ (lambdaHandler cfg ff none).1.body = stringifyMsg e) ∧
    ((lambdaHandler cfg ff (some [])).1.statusCode = 500 ∧
      ∃ e : Err, e ≠ [] ∧ (lambdaHandler cfg ff (some [])).1.body = stringifyMsg e) :=
  ⟨⟨rfl, ⟨(("SyntaxError: Expected colon after property name in JSON").toList),
      by decide, rfl⟩⟩,
   ⟨rfl, ⟨(("SyntaxError: Expected colon after property name in JSON").toList),
      by decide, rfl⟩⟩⟩

/-- C7: when decoding succeeds with a string message, the number of
outbound calls is exactly one when extraction succeeds and zero when it
does not, and the handler responds 201 in both cases. -/
theorem c7_calls_iff_extraction (cfg : Config) (ff : Bool) (b : Option (List Char))
    (record : List (List Char × JsValue)) (m : List Char)
    (hdec : decodeBody b = .ok record)
    (hmsg : jsLookup record messageKey = some (.str m)) :
    (lambdaHandler cfg ff b).2.length =
      (if (parseCustomTicketFields cfg.linkFieldId m).isSome then 1 else 0) ∧
    (lambdaHandler cfg ff b).1.statusCode = 201 := by
  cases hext : parseCustomTicketFields cfg.linkFieldId m with
  | none =>
    have h := handlerTry_none cfg ff b record m hdec hmsg hext
    unfold lambdaHandler
    rw [h]
    simp [okResponse]
  | some p =>
    have h := handlerTry_some cfg ff b record m p hdec hmsg hext
    unfold lambdaHandler
    rw [h]
    simp [okResponse]

/-- C7 witness: the no-URL message `Hello there` produces no outbound
call and a 201. -/
theorem c7_witness :
    (decodeBody (some (("message=Hello there&ticket_id=7").toList)) =
      .ok [(messageKey, JsValue.str (("Hello there").toList)),
           (ticketIdKey, JsValue.str (("7").toList))]) ∧
    ((lambdaHandler ⟨("tok".toList), ("fid".toList)⟩ false
        (some (("message=Hello there&ticket_id=7").toList))).2.length =
      (if (parseCustomTicketFields ("fid".toList) (("Hello there").toList)).isSome
        then 1 else 0)) :=
  ⟨by decide,
    (c7_calls_iff_extraction ⟨("tok".toList), ("fid".toList)⟩ false
      (some (("message=Hello there&ticket_id=7").toList))
      [(messageKey, JsValue.str (("Hello there").toList)),
       (ticketIdKey, JsValue.str (("7").toList))]
      (("Hello there").toList) (by decide) (by decide)).1⟩

/-- C8: extraction is deterministic (a pure function of the message:
re-running it yields the same result), carries at most one field update,
and when the message holds several URL-like tokens only the first is
used — the extractor's result does not depend on what follows the first
whitespace. -/
theorem c8_first_match_only (fid m u r r2 : List Char)
    (hu : ∀ c ∈ u, notSpace c = true) :
    parseCustomTicketFields fid m = parseCustomTicketFields fid m ∧
    updateCount (parseCustomTicketFields fid m) ≤ 1 ∧
    parseCustomTicketFields fid (u ++ ' ' :: r) =
      parseCustomTicketFields fid (u ++ ' ' :: r2) := by
  refine ⟨rfl, ?_, ?_⟩
  · cases parseCustomTicketFields fid m <;> simp [updateCount]
  · unfold parseCustomTicketFields
    rw [regexMatchUrl_eq, regexMatchUrl_eq]
    rw [beginsAnyB_space_cut u r r2]
    rw [takeWhile_space_cut u r hu, takeWhile_space_cut u r2 hu]

/-- C8 witness: two URLs in one message; the second URL does not change
the extraction. -/
theorem c8_witness :
    (∀ c ∈ (("https://a.b").toList), notSpace c = true) ∧
    parseCustomTicketFields (("fid").toList)
        ((("https://a.b").toList) ++ ' ' :: (("https://c.d").toList)) =
      parseCustomTicketFields (("fid").toList) ((("https://a.b").toList) ++ ' ' :: []) :=
  ⟨by decide,
    (c8_first_match_only (("fid").toList) [] (("https://a.b").toList)
      (("https://c.d").toList) [] (by decide)).2.2⟩

/-- C9: whenever decoding succeeds, extraction produces the payload `p`
and the record holds ticket id `tid`, the single outbound request is a
`post` to `https://app.trengo.com/api/v2/tickets/{tid}/custom_fields`
with the `Accept`/`Authorization`/`Content-Type` headers of the source
and body exactly `p`, where `p` is the serialized JSON object with keys
`custom_field_id` (the configured field id) and `value` (the matched
URL). -/
theorem c9_request_shape (cfg : Config) (ff : Bool) (b : Option (List Char))
    (record : List (List Char × JsValue)) (m p tid : List Char)
    (hdec : decodeBody b = .ok record)
    (hmsg : jsLookup record messageKey = some (.str m))
    (hext : parseCustomTicketFields cfg.linkFieldId m = some p)
    (htid : jsLookup record ticketIdKey = some (.str tid)) :
    (lambdaHandler cfg ff b).2 =
      [{ url := (("https://app.trengo.com/api/v2/tickets/").toList) ++ tid ++
            (("/custom_fields").toList),
         method := (("post").toList),
         accept := (("application/json").toList),
         authorization := (("Bearer ").toList) ++ cfg.token,
         contentType := (("application/json").toList),
         body := p }] ∧
    ∃ u, regexMatchUrl m = some u ∧ p = payloadString cfg.linkFieldId u := by
  constructor
  · have h := handlerTry_some cfg ff b record m p hdec hmsg hext
    unfold lambdaHandler
    rw [h]
    simp [trengoRequestFor, jsToString, htid]
  · unfold parseCustomTicketFields at hext
    cases hru : regexMatchUrl m with
    | none => rw [hru] at hext; simp at hext
    | some u =>
      rw [hru] at hext
      simp only [Option.map_some'] at hext
      exact ⟨u, rfl, (Option.some.inj hext).symm⟩

/-- C9 witness: the concrete request for `message=https://x&ticket_id=1`. -/
theorem c9_witness :
    (lambdaHandler ⟨("tok".toList), ("fid".toList)⟩ false
        (some (("message=https://x&ticket_id=1").toList))).2 =
      [{ url := (("https://app.trengo.com/api/v2/tickets/").toList) ++ (("1").toList) ++
            (("/custom_fields").toList),
         method := (("post").toList),
         accept := (("application/json").toList),
         authorization := (("Bearer ").toList) ++ ("tok".toList),
         contentType := (("application/json").toList),
         body := payloadString ("fid".toList) (("https://x").toList) }] :=
  (c9_request_shape ⟨("tok".toList), ("fid".toList)⟩ false
    (some (("message=https://x&ticket_id=1").toList))
    [(messageKey, JsValue.str (("https://x").toList)),
     (ticketIdKey, JsValue.str (("1").toList))]
    (("https://x").toList)
    (payloadString ("fid".toList) (("https://x").toList))
    (("1").toList)
    (by decide) (by decide) (by decide) (by decide)).1

/-- C10: when the body decodes to a record without a `message` field the
handler responds 500 (reading `.match` of `undefined` throws inside the
try block) and makes no outbound call; and for every body the handler
itself never throws — it returns either a 201 or a 500 response. -/
theorem c10_missing_message (cfg : Config) (ff : Bool) (b : Option (List Char))
    (record : List (List Char × JsValue))
    (hdec : decodeBody b = .ok record)
    (hmsg : jsLookup record messageKey = none) :
    (lambdaHandler cfg ff b).1.statusCode = 500 ∧
    (lambdaHandler cfg ff b).2 = [] ∧
    ∀ b2 : Option (List Char),
      (lambdaHandler cfg ff b2).1.statusCode = 201 ∨
      (lambdaHandler cfg ff b2).1.statusCode = 500 := by
  have h := handlerTry_nomsg cfg ff b record hdec hmsg
  refine ⟨?_, ?_, ?_⟩
  · unfold lambdaHandler
    rw [h]
  · unfold lambdaHandler
    rw [h]
  · intro b2
    cases hh : handlerTry cfg ff b2 with
    | ok rc =>
      left
      unfold lambdaHandler
      rw [hh]
      exact handlerTry_ok_status cfg ff b2 rc hh
    | error e =>
      right
      unfold lambdaHandler
      rw [hh]

/-- C10 witness: the body `ticket_id=7` decodes without a `message`
field; the handler answers 500 with no outbound call. -/
theorem c10_witness :
    (decodeBody (some (("ticket_id=7").toList)) =
      .ok [(ticketIdKey, JsValue.str (("7").toList))]) ∧
    (jsLookup [(ticketIdKey, JsValue.str (("7").toList))] messageKey = none) ∧
    (lambdaHandler ⟨("tok".toList), ("fid".toList)⟩ false
      (some (("ticket_id=7").toList))).1.statusCode = 500 :=
  ⟨by decide, by decide,
    (c10_missing_message ⟨("tok".toList), ("fid".toList)⟩ false
      (some (("ticket_id=7").toList))
      [(ticketIdKey, JsValue.str (("7").toList))]
      (by decide) (by decide)).1⟩

end Trengo
